import Mathlib

/-!
Verification development for the review-orchestration core of the
`mcp-code-crosscheck` repository.

The TypeScript sources are shallowly embedded: model identifiers and raw
review responses are lists of characters (`Str`), JavaScript string
methods (`toLowerCase`, `includes`, `trim`, regex search) are translated
to executable Lean functions, `JSON.parse` is modelled by a fuel-based
recursive-descent parser over a JSON value type whose numbers are
integers (all values relevant to the verified claims are integers), and
thrown exceptions are modelled by `Option`/`Except` results.
-/

/-- Character strings, the model of JavaScript strings. -/
abbrev Str := List Char

/-- Conversion from Lean string literals to the embedded string type. -/
def str (s : String) : Str := s.data

/-- JavaScript `toLowerCase`, restricted to the character data. -/
def lower (s : Str) : Str := s.map Char.toLower

/-- JavaScript `String.prototype.includes`: substring containment. -/
def containsStr : Str → Str → Bool
  | [], t => t.isEmpty
  | l@(_ :: rest), t => t.isPrefixOf l || containsStr rest t

/-- Whitespace characters recognized by the model of `\s` and `trim`
(space, tab, newline, carriage return). -/
def wsChar (c : Char) : Bool := c == ' ' || c == '\t' || c == '\n' || c == '\r'

/-- JavaScript `String.prototype.trim` (left and right trim). -/
def trimStr (s : Str) : Str :=
  ((s.dropWhile wsChar).reverse.dropWhile wsChar).reverse

/-- The base-model vocabulary of the regex
`/^(gpt|claude|gemini|llama|mistral|phi|codestral|deepseek|qwen)/i`
in `hasModelOverlap` (src/src/utils.ts). -/
def baseModelTokens : List Str :=
  [str "gpt", str "claude", str "gemini", str "llama", str "mistral",
   str "phi", str "codestral", str "deepseek", str "qwen"]

/-- Anchored match of the base-model regex: the first vocabulary token
that is a prefix of the (already lowercased) identifier. -/
def extractBaseModel (m : Str) : Option Str :=
  baseModelTokens.find? fun t => t.isPrefixOf m

/-- The provider vocabulary of the regex
`/(openai|anthropic|google|meta|microsoft|mistral|deepseek|alibaba)/i`
in `hasModelOverlap` (src/src/utils.ts). -/
def providerTokens : List Str :=
  [str "openai", str "anthropic", str "google", str "meta",
   str "microsoft", str "mistral", str "deepseek", str "alibaba"]

/-- Unanchored match of the provider regex: scan positions left to
right, and at each position try the alternatives in order. -/
def findProvider : Str → Option Str
  | [] => none
  | m@(_ :: rest) =>
    match providerTokens.find? (fun t => t.isPrefixOf m) with
    | some t => some t
    | none => findProvider rest

/-- Lowercase ASCII letter, the character class `[a-z]`. -/
def alphaChar (c : Char) : Bool := 'a' ≤ c && c ≤ 'z'

/-- Fuel-based worker for `significantParts`; each step consumes at
least one character, so fuel equal to the string length is enough. -/
def significantPartsFuel : Nat → Str → List Str
  | 0, _ => []
  | _, [] => []
  | fuel + 1, c :: rest =>
    if alphaChar c then
      let run := List.takeWhile alphaChar (c :: rest)
      let rest2 := List.dropWhile alphaChar rest
      if 4 ≤ run.length then run :: significantPartsFuel fuel rest2
      else significantPartsFuel fuel rest2
    else significantPartsFuel fuel rest

/-- The matches of `/[a-z]{4,}/g`: maximal runs of lowercase letters of
length at least 4, in order (src/src/utils.ts line 33). -/
def significantParts (s : Str) : List Str :=
  significantPartsFuel s.length s

/-- The nested loop at src/src/utils.ts lines 36-42: some significant
part is shared verbatim between the two identifiers. -/
def sharedSignificantPart (m1 m2 : Str) : Bool :=
  (significantParts m1).any fun p1 =>
    (significantParts m2).any fun p2 => p1 == p2

/-- `hasModelOverlap` from src/src/utils.ts lines 8-45: base-name
comparison when both extract a base name, otherwise provider equality,
otherwise a shared significant substring. -/
def hasModelOverlap (model1 model2 : Str) : Bool :=
  let m1 := lower model1
  let m2 := lower model2
  match extractBaseModel m1, extractBaseModel m2 with
  | some b1, some b2 => b1 == b2
  | _, _ =>
    match findProvider m1, findProvider m2 with
    | some p1, some p2 => p1 == p2 || sharedSignificantPart m1 m2
    | _, _ => sharedSignificantPart m1 m2

/-- `shouldExcludeModel` from src/src/utils.ts lines 50-56: exact
(case-sensitive) equality or family overlap. -/
def shouldExcludeModel (generationModel candidateModel : Str) : Bool :=
  generationModel == candidateModel ||
    hasModelOverlap generationModel candidateModel

/-- `createFallbackHints` from src/src/utils.ts lines 80-115; a hint is
modelled by its `name` field. -/
def createFallbackHints (generationModel : Str) : List Str :=
  let modelLower := lower generationModel
  if containsStr modelLower (str "gpt") || containsStr modelLower (str "openai") then
    [str "claude", str "gemini"]
  else if containsStr modelLower (str "claude") || containsStr modelLower (str "anthropic") then
    [str "gpt", str "gemini", str "openai"]
  else if containsStr modelLower (str "gemini") || containsStr modelLower (str "google") then
    [str "claude", str "gpt", str "openai"]
  else if containsStr modelLower (str "llama") || containsStr modelLower (str "meta") then
    [str "claude", str "gpt", str "gemini"]
  else
    [str "claude", str "gpt", str "gemini"]

/-- A commit author record; every field is optional, matching the
flexible author objects accepted by `detectModelFromCoAuthors`
(src/src/utils.ts lines 137-143).  The `id` field and additional
pass-through fields are never read by detection and are omitted. -/
structure CommitAuthor where
  name : Option Str
  email : Option Str
  login : Option Str

/-- The per-author body of the loop in `detectModelFromCoAuthors`
(src/src/utils.ts lines 144-170). -/
def detectAuthorModel (author : CommitAuthor) : Option Str :=
  let name := lower (author.name.getD [])
  let email := lower (author.email.getD [])
  let login := lower (author.login.getD [])
  if containsStr name (str "claude") || containsStr email (str "anthropic.com")
      || containsStr login (str "claude") then
    some (str "claude")
  else if containsStr name (str "gpt") || containsStr name (str "openai")
      || containsStr email (str "openai.com") || containsStr login (str "gpt") then
    some (str "gpt-4")
  else if containsStr name (str "copilot")
      || (containsStr email (str "github.com") && containsStr login (str "copilot")) then
    some (str "github-copilot")
  else if containsStr name (str "gemini") || containsStr name (str "bard")
      || containsStr email (str "google.com") then
    some (str "gemini")
  else
    none

/-- `detectModelFromCoAuthors` from src/src/utils.ts lines 137-173:
first matching author wins. -/
def detectModelFromCoAuthors : List CommitAuthor → Option Str
  | [] => none
  | a :: rest =>
    match detectAuthorModel a with
    | some m => some m
    | none => detectModelFromCoAuthors rest

/-- A fetched commit, reduced to the only field detection reads. -/
structure GitHubCommit where
  authors : List CommitAuthor

/-- JavaScript truthiness of an optional string parameter: present and
nonempty. -/
def truthy : Option Str → Bool
  | none => false
  | some s => !s.isEmpty

/-- The loop over PR commits in `detectGenerationModel`
(src/src/utils.ts lines 256-261): first commit with a detected
co-author model wins. -/
def firstCommitModel : List GitHubCommit → Option Str
  | [] => none
  | c :: rest =>
    match detectModelFromCoAuthors c.authors with
    | some m => some m
    | none => firstCommitModel rest

/-- `detectGenerationModel` from src/src/utils.ts lines 244-287.  The
two asynchronous GitHub CLI collaborators are passed as `Except`
results (`Except.error` models a thrown fetch failure, which the source
catches and ignores); `Except.error ()` in the result models the thrown
`MissingGenerationModel` error. -/
def detectGenerationModel (prNumber commitHash : Option Str)
    (prCommitsFetch : Except Unit (List GitHubCommit))
    (commitFetch : Except Unit GitHubCommit)
    (providedModel : Option Str) : Except Unit Str :=
  let prDetected : Option Str :=
    if truthy prNumber then
      match prCommitsFetch with
      | .ok commits => firstCommitModel commits
      | .error _ => none
    else none
  match prDetected with
  | some m => .ok m
  | none =>
    let commitDetected : Option Str :=
      if truthy commitHash then
        match commitFetch with
        | .ok c => detectModelFromCoAuthors c.authors
        | .error _ => none
      else none
    match commitDetected with
    | some m => .ok m
    | none =>
      if truthy providedModel then .ok (providedModel.getD [])
      else .error ()

/-- The model yielded by co-author detection alone, tried first on the
PR's commits in order and then on the single commit, with a failed
fetch contributing nothing — the detection source order described by
the specification for `detectGenerationModel`. -/
def metadataDetectedModel (prNumber commitHash : Option Str)
    (prCommitsFetch : Except Unit (List GitHubCommit))
    (commitFetch : Except Unit GitHubCommit) : Option Str :=
  let prDetected : Option Str :=
    if truthy prNumber then
      match prCommitsFetch with
      | .ok commits => firstCommitModel commits
      | .error _ => none
    else none
  let commitDetected : Option Str :=
    if truthy commitHash then
      match commitFetch with
      | .ok c => detectModelFromCoAuthors c.authors
      | .error _ => none
    else none
  prDetected.or commitDetected

/-- JSON values as produced by `JSON.parse`; numbers are modelled as
integers (every value occurring in the verified claims is an integer). -/
inductive Json where
  | null
  | bool (b : Bool)
  | num (n : Int)
  | str (s : Str)
  | arr (elems : List Json)
  | obj (members : List (Str × Json))

/-- Property access on a parsed JSON object; with duplicate keys the
later member wins, as in JavaScript. -/
def Json.getField : Json → Str → Option Json
  | .obj ms, k => (ms.reverse.find? fun kv => kv.1 == k).map fun kv => kv.2
  | _, _ => none

/-- ASCII digit. -/
def digitChar (c : Char) : Bool := '0' ≤ c && c ≤ '9'

/-- Numeric value of a digit run. -/
def natOfDigits (ds : Str) : Nat :=
  ds.foldl (fun acc c => acc * 10 + (c.toNat - '0'.toNat)) 0

/-- Parse a nonempty digit run. -/
def parseDigits (s : Str) : Option (Nat × Str) :=
  let ds := s.takeWhile digitChar
  if ds.isEmpty then none
  else some (natOfDigits ds, s.dropWhile digitChar)

/-- Resolve a string escape; the model supports the JSON escapes that
need no hex digits. -/
def escapeChar (e : Char) : Option Char :=
  if e = '"' then some '"'
  else if e = '\\' then some '\\'
  else if e = '/' then some '/'
  else if e = 'n' then some '\n'
  else if e = 't' then some '\t'
  else if e = 'r' then some '\r'
  else none

/-- Parse the body of a JSON string after its opening quote, returning
the decoded content and the input after the closing quote. -/
def parseStringBody : Str → Option (Str × Str)
  | [] => none
  | c :: rest =>
    if c = '"' then some ([], rest)
    else if c = '\\' then
      match rest with
      | [] => none
      | e :: rest2 =>
        match escapeChar e with
        | some ch => (parseStringBody rest2).map fun p => (ch :: p.1, p.2)
        | none => none
    else
      (parseStringBody rest).map fun p => (c :: p.1, p.2)

mutual

/-- Fuel-based recursive-descent model of `JSON.parse` for one value;
returns the value and the unconsumed input. -/
def parseValue : Nat → Str → Option (Json × Str)
  | 0, _ => none
  | fuel + 1, s =>
    match s.dropWhile wsChar with
    | [] => none
    | c :: rest =>
      if c = '"' then
        match parseStringBody rest with
        | some (content, r) => some (.str content, r)
        | none => none
      else if c = '{' then
        match rest.dropWhile wsChar with
        | '}' :: r => some (.obj [], r)
        | _ =>
          match parseMembers fuel rest with
          | some (ms, r) => some (.obj ms, r)
          | none => none
      else if c = '[' then
        match rest.dropWhile wsChar with
        | ']' :: r => some (.arr [], r)
        | _ =>
          match parseElems fuel rest with
          | some (es, r) => some (.arr es, r)
          | none => none
      else if c = 'n' then
        if (str "ull").isPrefixOf rest then some (.null, rest.drop 3) else none
      else if c = 't' then
        if (str "rue").isPrefixOf rest then some (.bool true, rest.drop 3) else none
      else if c = 'f' then
        if (str "alse").isPrefixOf rest then some (.bool false, rest.drop 4) else none
      else if c = '-' then
        match parseDigits rest with
        | some (n, r) => some (.num (-(n : Int)), r)
        | none => none
      else if digitChar c then
        match parseDigits (c :: rest) with
        | some (n, r) => some (.num (n : Int), r)
        | none => none
      else none

/-- Comma-separated array elements after a nonempty `[`. -/
def parseElems : Nat → Str → Option (List Json × Str)
  | 0, _ => none
  | fuel + 1, s =>
    match parseValue fuel s with
    | none => none
    | some (v, r) =>
      match r.dropWhile wsChar with
      | ',' :: r2 =>
        match parseElems fuel r2 with
        | some (vs, r3) => some (v :: vs, r3)
        | none => none
      | ']' :: r2 => some ([v], r2)
      | _ => none

/-- Comma-separated object members after a nonempty `{`. -/
def parseMembers : Nat → Str → Option (List (Str × Json) × Str)
  | 0, _ => none
  | fuel + 1, s =>
    match s.dropWhile wsChar with
    | '"' :: rest =>
      match parseStringBody rest with
      | some (key, r) =>
        match r.dropWhile wsChar with
        | ':' :: r2 =>
          match parseValue fuel r2 with
          | none => none
          | some (v, r3) =>
            match r3.dropWhile wsChar with
            | ',' :: r4 =>
              match parseMembers fuel r4 with
              | some (ms, r5) => some ((key, v) :: ms, r5)
              | none => none
            | '}' :: r4 => some ([(key, v)], r4)
            | _ => none
        | _ => none
      | none => none
    | _ => none

end

/-- `JSON.parse`: a whole input parses to a single value followed only
by whitespace; `none` models a thrown `SyntaxError`. -/
def jsonParse (s : Str) : Option Json :=
  match parseValue (2 * s.length + 2) s with
  | some (v, r) => if (r.dropWhile wsChar).isEmpty then some v else none
  | none => none

/-- The literal `` ``` `` fence marker. -/
def fenceTicks : Str := str "```"

/-- After a candidate closing brace, the pattern requires `\s*` and then
the closing fence marker. -/
def fenceTailOk (v : Str) : Bool := fenceTicks.isPrefixOf (v.dropWhile wsChar)

/-- Greedy search for the last `}` that is followed by `\s*` and a
closing fence; returns the input's prefix up to and including that
brace — the behaviour of the greedy capture `(\{[\s\S]*\})` in
`parseReviewResponse`. -/
def captureFrom : Str → Option Str
  | [] => none
  | c :: rest =>
    match captureFrom rest with
    | some cap => some (c :: cap)
    | none => if c == '}' && fenceTailOk rest then some [c] else none

/-- Match `\s*(\{[\s\S]*\})\s*` followed by the closing fence: skip
whitespace, require an opening brace, and take the greedy capture. -/
def tryFenceBody (u : Str) : Option Str :=
  match u.dropWhile wsChar with
  | '{' :: t => captureFrom ('{' :: t)
  | _ => none

/-- After an opening fence marker, try the optional `json` tag first
(the greedy `(?:json)?`), then the untagged alternative. -/
def fenceAfterTicks (r : Str) : Option Str :=
  match (if (str "json").isPrefixOf r then tryFenceBody (r.drop 4) else none) with
  | some cap => some cap
  | none => tryFenceBody r

/-- Leftmost match of the fenced-block regex
``/```(?:json)?\s*(\{[\s\S]*\})\s*```/`` over the response: try every
start position from the left, completing the match at the first
position where the whole pattern succeeds. -/
def findFencedJson : Str → Option Str
  | [] => none
  | s@(_ :: rest) =>
    match (if fenceTicks.isPrefixOf s then fenceAfterTicks (s.drop 3) else none) with
    | some cap => some cap
    | none => findFencedJson rest

/-- The string handed to `JSON.parse` by `parseReviewResponse`
(src/src/utils.ts lines 121-131): the fenced capture if the regex
matches, else the trimmed response. -/
def extractJsonText (response : Str) : Str :=
  match findFencedJson response with
  | some cap => cap
  | none => trimStr response

/-- `parseReviewResponse` from src/src/utils.ts lines 121-131; `none`
models the re-thrown parse failure. -/
def parseReviewResponse (response : Str) : Option Json :=
  jsonParse (extractJsonText response)

/-- Wrapping a response in a fenced code block tagged as JSON. -/
def wrapFence (s : Str) : Str := str "```json\n" ++ s ++ str "\n```"

/-- Check that an optional field is a present string (`z.string()`). -/
def isStringField : Option Json → Bool
  | some (.str _) => true
  | _ => false

/-- The `severity` enumeration of `ReviewIssueSchema`. -/
def severityValues : List Str := [str "critical", str "major", str "minor"]

/-- The `reviewStrategy` enumeration of `ReviewCodeOutputSchema`
(src/unnamed/part_007). -/
def strategyValues : List Str := [str "adversarial", str "bias_aware", str "hybrid"]

/-- `ReviewIssueSchema`: severity in the enumeration, description and
suggestion strings. -/
def validIssue (j : Json) : Bool :=
  (match Json.getField j (str "severity") with
   | some (.str sev) => severityValues.any fun v => v == sev
   | _ => false) &&
  isStringField (Json.getField j (str "description")) &&
  isStringField (Json.getField j (str "suggestion"))

/-- The `issues` field: a present array of valid issues. -/
def validIssues : Option Json → Bool
  | some (.arr xs) => xs.all validIssue
  | _ => false

/-- One metric of `ReviewMetricsSchema`: `z.number().min(1).max(5)` on
a present field (src/src/types.ts lines 20-25). -/
def metricInRange : Option Json → Bool
  | some (.num n) => 1 ≤ n && n ≤ 5
  | _ => false

/-- `ReviewMetricsSchema` applied to the `metrics` field: all four
metrics present and within the fixed 1..5 bound. -/
def validMetricsField (metrics : Option Json) : Bool :=
  match metrics with
  | some m =>
    metricInRange (Json.getField m (str "errorHandling")) &&
    metricInRange (Json.getField m (str "performance")) &&
    metricInRange (Json.getField m (str "security")) &&
    metricInRange (Json.getField m (str "maintainability"))
  | none => false

/-- The optional `biasTriggersFound` field: absent, or an array of
strings (`z.array(z.string()).optional()`). -/
def validBiasTriggersField : Option Json → Bool
  | none => true
  | some (.arr xs) => xs.all fun x => match x with | .str _ => true | _ => false
  | some _ => false

/-- `ReviewCodeOutputSchema.parse` from src/unnamed/part_007 lines
61-69, as a validity check on the parsed value: required string
`reviewModel`, `reviewStrategy` in the strategy enumeration, required
string `summary`, `issues` array, `metrics` record, required string
`alternative`, and optional `biasTriggersFound` — the optionality does
not depend on the strategy. -/
def reviewCodeOutputValid (j : Json) : Bool :=
  isStringField (Json.getField j (str "reviewModel")) &&
  (match Json.getField j (str "reviewStrategy") with
   | some (.str s) => strategyValues.any fun v => v == s
   | _ => false) &&
  isStringField (Json.getField j (str "summary")) &&
  validIssues (Json.getField j (str "issues")) &&
  validMetricsField (Json.getField j (str "metrics")) &&
  isStringField (Json.getField j (str "alternative")) &&
  validBiasTriggersField (Json.getField j (str "biasTriggersFound"))

/-- The object literal `{ reviewModel: ..., reviewStrategy: ...,
...reviewData }` built by the `review_code` handler
(src/unnamed/part_003): spread keys override the two fixed keys, since
later members win.  Spreading a non-object primitive contributes no
members, as in JavaScript. -/
def spreadReviewFields (model strategy : Str) (reviewData : Json) : Json :=
  match reviewData with
  | .obj ms =>
    .obj ((str "reviewModel", Json.str model) ::
          (str "reviewStrategy", Json.str strategy) :: ms)
  | _ =>
    .obj [(str "reviewModel", Json.str model),
          (str "reviewStrategy", Json.str strategy)]

/-- The parse-and-validate tail of the `review_code` handler
(src/unnamed/part_003 lines 365-377): parse the response text, merge in
the review model and strategy, and validate against
`ReviewCodeOutputSchema`; `none` models the caught error path. -/
def interpretReviewResponse (reviewStrategy model rawText : Str) : Option Json :=
  match parseReviewResponse rawText with
  | none => none
  | some reviewData =>
    let merged := spreadReviewFields model reviewStrategy reviewData
    if reviewCodeOutputValid merged then some merged else none

/-- The metrics scale declared by the 1-3 strategy templates ("Rate
these specific aspects (1-3 scale)" in the adversarial markdown
template, src/unnamed/part_000, and the hybrid template,
src/prompts/hybrid-reviewer.md). -/
def declaredScaleOneToThree : Int := 3

mutual

/-- Structural equality of JSON values. -/
def Json.beq : Json → Json → Bool
  | .null, .null => true
  | .bool a, .bool b => a == b
  | .num a, .num b => a == b
  | .str a, .str b => a == b
  | .arr xs, .arr ys => Json.beqList xs ys
  | .obj xs, .obj ys => Json.beqMembers xs ys
  | _, _ => false

/-- Structural equality of JSON value lists. -/
def Json.beqList : List Json → List Json → Bool
  | [], [] => true
  | x :: xs, y :: ys => Json.beq x y && Json.beqList xs ys
  | _, _ => false

/-- Structural equality of JSON member lists. -/
def Json.beqMembers : List (Str × Json) → List (Str × Json) → Bool
  | [], [] => true
  | (k1, v1) :: xs, (k2, v2) :: ys =>
    k1 == k2 && Json.beq v1 v2 && Json.beqMembers xs ys
  | _, _ => false

end

instance : BEq Json := ⟨Json.beq⟩

instance : Inhabited Json := ⟨Json.null⟩

/-- The generation model mentions the OpenAI family vocabulary used by
`createFallbackHints`. -/
def mentionsOpenAIFamily (l : Str) : Bool :=
  containsStr l (str "gpt") || containsStr l (str "openai")

/-- The generation model mentions the Anthropic family vocabulary used
by `createFallbackHints`. -/
def mentionsAnthropicFamily (l : Str) : Bool :=
  containsStr l (str "claude") || containsStr l (str "anthropic")

/-- The generation model mentions the Google family vocabulary used by
`createFallbackHints`. -/
def mentionsGoogleFamily (l : Str) : Bool :=
  containsStr l (str "gemini") || containsStr l (str "google")

/-- The generation model mentions the Meta family vocabulary used by
`createFallbackHints`. -/
def mentionsMetaFamily (l : Str) : Bool :=
  containsStr l (str "llama") || containsStr l (str "meta")

/-- Number of distinct provider-family vocabularies mentioned by the
lowercased generation model. -/
def familiesMentioned (g : Str) : Nat :=
  (([mentionsOpenAIFamily, mentionsAnthropicFamily,
     mentionsGoogleFamily, mentionsMetaFamily]).filter
    fun f => f (lower g)).length

/-- An identifier has a family signal usable by `hasModelOverlap`: a
recognized base name, a recognized provider token, or a lowercase
alphabetic run of length at least 4. -/
def hasFamilySignal (a : Str) : Bool :=
  (extractBaseModel (lower a)).isSome ||
  (findProvider (lower a)).isSome ||
  !(significantParts (lower a)).isEmpty

/-- Replace each absent author field by an explicitly present empty
string. -/
def fillEmptyFields (a : CommitAuthor) : CommitAuthor :=
  ⟨some (a.name.getD []), some (a.email.getD []), some (a.login.getD [])⟩

/-- A syntactically valid JSON object text whose single string value
contains a fenced block around a brace pair — the counterexample input
for the fence-unwrapping claim. -/
def fencedInsideString : Str := str "\x7b\"a\":\"``` \x7bx\x7d ```\"\x7d"

/-- A serialized review without the optional `biasTriggersFound` field
(and without `reviewModel`/`reviewStrategy`, which the handler merges
in). -/
def reviewWithoutBiasTriggers : Str :=
  str "\x7b\"summary\":\"s\",\"issues\":[],\"metrics\":\x7b\"errorHandling\":1,\"performance\":2,\"security\":3,\"maintainability\":4\x7d,\"alternative\":\"a\"\x7d"

/-- A metrics record with the four fixed fields. -/
def metricsObj (e p s m : Int) : Json :=
  .obj [(str "errorHandling", .num e), (str "performance", .num p),
        (str "security", .num s), (str "maintainability", .num m)]

/-! ### Shared lemmas about the string model -/

theorem containsStr_iff (l t : Str) : containsStr l t = true ↔ t <:+: l := by
  induction l with
  | nil =>
    simp [containsStr, List.isEmpty_iff, List.infix_nil]
  | cons c rest ih =>
    simp [containsStr, Bool.or_eq_true, List.isPrefixOf_iff_prefix, ih,
      List.infix_cons_iff]

theorem extractBaseModel_some {m b : Str} (h : extractBaseModel m = some b) :
    b <+: m := by
  have hp := List.find?_some h
  exact List.isPrefixOf_iff_prefix.mp hp

theorem findProvider_some {m p : Str} (h : findProvider m = some p) :
    p <:+: m := by
  induction m with
  | nil => simp [findProvider] at h
  | cons c rest ih =>
    rw [findProvider] at h
    cases hf : providerTokens.find? (fun t => t.isPrefixOf (c :: rest)) with
    | some t =>
      rw [hf] at h
      cases h
      have hp := List.find?_some hf
      exact (List.isPrefixOf_iff_prefix.mp hp).isInfix
    | none =>
      rw [hf] at h
      exact (ih h).trans (List.suffix_cons c rest).isInfix

theorem significantPartsFuel_infix {fuel : Nat} {s r : Str}
    (h : r ∈ significantPartsFuel fuel s) : r <:+: s := by
  induction fuel generalizing s with
  | zero => simp [significantPartsFuel] at h
  | succ fuel ih =>
    cases s with
    | nil => simp [significantPartsFuel] at h
    | cons c rest =>
      rw [significantPartsFuel] at h
      by_cases ha : alphaChar c
      · simp only [ha, if_true] at h
        by_cases hlen : 4 ≤ (List.takeWhile alphaChar (c :: rest)).length
        · simp only [hlen, if_true, List.mem_cons] at h
          rcases h with h | h
          · rw [h]
            exact (List.takeWhile_prefix alphaChar).isInfix
          · exact (ih h).trans
              ((List.dropWhile_suffix alphaChar).trans
                (List.suffix_cons c rest)).isInfix
        · simp only [hlen, if_false] at h
          exact (ih h).trans
            ((List.dropWhile_suffix alphaChar).trans
              (List.suffix_cons c rest)).isInfix
      · simp only [ha, if_false] at h
        exact (ih h).trans (List.suffix_cons c rest).isInfix

theorem significantParts_infix {s r : Str} (h : r ∈ significantParts s) :
    r <:+: s :=
  significantPartsFuel_infix h

theorem sharedSignificantPart_symm (x y : Str) :
    sharedSignificantPart x y = sharedSignificantPart y x := by
  rw [Bool.eq_iff_iff]
  simp only [sharedSignificantPart, List.any_eq_true, beq_iff_eq]
  constructor
  · rintro ⟨p, hp, q, hq, h⟩
    exact ⟨q, hq, p, hp, h.symm⟩
  · rintro ⟨p, hp, q, hq, h⟩
    exact ⟨q, hq, p, hp, h.symm⟩

theorem sharedSignificantPart_self (x : Str) :
    sharedSignificantPart x x = !(significantParts x).isEmpty := by
  cases h : significantParts x with
  | nil => simp [sharedSignificantPart, h]
  | cons p ps =>
    simp only [List.isEmpty_cons, Bool.not_false]
    simp only [sharedSignificantPart, h, List.any_eq_true, beq_iff_eq]
    exact ⟨p, List.mem_cons_self p ps, p, List.mem_cons_self p ps, rfl⟩

/-! ### Claim theorems for the family matcher -/

/-- C2: counterexample.  The claim asserts reflexivity of
`hasModelOverlap` for every identifier, including those with no
recognized base name, no recognized provider, and no alphabetic run of
length at least 4; but on such an identifier, here `"x"`, the matcher
reports no self-overlap, because `hasModelOverlap` has no equality
short-circuit and every heuristic comes back empty. -/
theorem C2_counterexample : hasModelOverlap (str "x") (str "x") = false := by
  decide

/-- C2 as amended: the family matcher is reflexive exactly on
identifiers with a family signal — a recognized base name, a recognized
provider token, or a lowercase alphabetic run of length at least 4;
self-overlap is `false` on identifiers with none of these. -/
theorem C2_amended (a : Str) : hasModelOverlap a a = hasFamilySignal a := by
  unfold hasModelOverlap hasFamilySignal
  cases hb : extractBaseModel (lower a) with
  | some b => simp [hb]
  | none =>
    cases hp : findProvider (lower a) with
    | some p => simp [hb, hp]
    | none => simp [hb, hp, sharedSignificantPart_self]

/-- C9: a base-name mismatch is conclusive.  When both identifiers
extract a base-name token from the fixed vocabulary, `hasModelOverlap`
is exactly equality of the two extracted tokens, regardless of shared
provider tokens or shared alphabetic runs. -/
theorem C9_base_name_conclusive (a b ta tb : Str)
    (ha : extractBaseModel (lower a) = some ta)
    (hb : extractBaseModel (lower b) = some tb) :
    hasModelOverlap a b = (ta == tb) := by
  unfold hasModelOverlap
  simp [ha, hb]

/-- C9: witness.  `"claude-3-opus"` and `"gpt-4o"` both extract a base
name, and the matcher returns exactly the token comparison (here
`false`, even though both identifiers contain the digit-free run
`opus`/no shared run — the base names decide). -/
theorem C9_witness :
    extractBaseModel (lower (str "claude-3-opus")) = some (str "claude") ∧
    hasModelOverlap (str "claude-3-opus") (str "gpt-4o") = (str "claude" == str "gpt") :=
  ⟨by decide,
   C9_base_name_conclusive (str "claude-3-opus") (str "gpt-4o")
     (str "claude") (str "gpt") (by decide) (by decide)⟩

theorem beqStr_comm (x y : Str) : (x == y) = (y == x) := by
  rw [Bool.eq_iff_iff]
  simp only [beq_iff_eq]
  exact eq_comm

/-- C10: the family matcher is symmetric — every branch of
`hasModelOverlap` (base-name comparison, provider comparison, shared
significant runs) is invariant under swapping the two identifiers. -/
theorem C10_symmetric (a b : Str) :
    hasModelOverlap a b = hasModelOverlap b a := by
  unfold hasModelOverlap
  cases ha : extractBaseModel (lower a) <;>
    cases hb : extractBaseModel (lower b) <;>
      simp only [ha, hb] <;>
      [skip; skip; skip; exact beqStr_comm _ _] <;>
    cases hpa : findProvider (lower a) <;>
      cases hpb : findProvider (lower b) <;>
        simp only [hpa, hpb] <;>
        rw [sharedSignificantPart_symm (lower a) (lower b)] <;>
        first
          | rfl
          | rw [beqStr_comm]

/-! ### Claim theorems for author-model detection -/

/-- C7: author-model detection is first-match-wins over the author list
in order.  The Claude/Anthropic example detects `"claude"`, and in
general, whenever every author before `a` matches no provider
signature and `a` matches with canonical identifier `m`, detection over
the whole list returns `m` — regardless of what later authors would
match. -/
theorem C7_first_match_wins :
    detectModelFromCoAuthors
      [⟨some (str "Claude"), some (str "noreply@anthropic.com"), none⟩]
      = some (str "claude") ∧
    ∀ (pre : List CommitAuthor) (a : CommitAuthor) (m : Str)
      (post : List CommitAuthor),
      (∀ b ∈ pre, detectAuthorModel b = none) →
      detectAuthorModel a = some m →
      detectModelFromCoAuthors (pre ++ a :: post) = some m := by
  refine ⟨by decide, ?_⟩
  intro pre a m post hpre ha
  induction pre with
  | nil => simp [detectModelFromCoAuthors, ha]
  | cons b bs ih =>
    have hb : detectAuthorModel b = none := hpre b (List.mem_cons_self b bs)
    simp only [List.cons_append, detectModelFromCoAuthors, hb]
    exact ih fun x hx => hpre x (List.mem_cons_of_mem b hx)

/-- C7: witness, instantiating first-match-wins at a three-author list
whose first author carries no signal, whose second matches the
GPT/OpenAI signature, and whose third would match the Claude signature:
detection returns `"gpt-4"` from the second author. -/
theorem C7_witness :
    detectModelFromCoAuthors
      [⟨none, none, none⟩, ⟨some (str "GPT-5"), none, none⟩,
       ⟨some (str "Claude"), none, none⟩] = some (str "gpt-4") :=
  C7_first_match_wins.2 [⟨none, none, none⟩]
    ⟨some (str "GPT-5"), none, none⟩ (str "gpt-4")
    [⟨some (str "Claude"), none, none⟩]
    (by intro b hb
        have : b = ⟨none, none, none⟩ := by simpa using hb
        rw [this]
        decide)
    (by decide)

/-- C8: author-model detection is total — the empty list and the
all-absent author detect nothing (returning `none`, never raising), and
for every author an absent name/email/login field behaves exactly as an
explicitly present empty string. -/
theorem C8_detection_total :
    detectModelFromCoAuthors [] = none ∧
    detectModelFromCoAuthors [⟨none, none, none⟩] = none ∧
    ∀ a : CommitAuthor, detectAuthorModel a = detectAuthorModel (fillEmptyFields a) :=
  ⟨by decide, by decide, fun _ => rfl⟩

/-! ### Claim theorems for generation-model resolution -/

theorem pipeline_error_iff (prD cD provided : Option Str) :
    ((match prD with
      | some m => (Except.ok m : Except Unit Str)
      | none =>
        match cD with
        | some m => Except.ok m
        | none =>
          if truthy provided then Except.ok (provided.getD []) else Except.error ())
      = Except.error ())
      ↔ (prD.or cD = none ∧ truthy provided = false) := by
  cases prD <;> cases cD <;> cases h : truthy provided <;>
    simp_all [Option.or]

/-- C5: `detectGenerationModel` fails with `MissingGenerationModel`
(modelled by `Except.error ()`) exactly when co-author detection —
tried first on the PR's commits in order, then on the single commit,
with a failed metadata fetch contributing nothing — yields no model and
no truthy caller-supplied model exists; and when both fetches fail but
a caller-supplied model is present, the operation does not abort but
returns that model. -/
theorem C5_missing_model_characterization
    (prNumber commitHash : Option Str)
    (prFetch : Except Unit (List GitHubCommit))
    (commitFetch : Except Unit GitHubCommit)
    (providedModel : Option Str) :
    (detectGenerationModel prNumber commitHash prFetch commitFetch providedModel
        = .error ()
      ↔ metadataDetectedModel prNumber commitHash prFetch commitFetch = none
          ∧ truthy providedModel = false) ∧
    (prFetch = .error () → commitFetch = .error () → truthy providedModel = true →
      detectGenerationModel prNumber commitHash prFetch commitFetch providedModel
        = .ok (providedModel.getD [])) := by
  constructor
  · exact pipeline_error_iff _ _ providedModel
  · intro hpr hc hprov
    unfold detectGenerationModel
    rw [hpr, hc]
    cases htp : truthy prNumber <;> cases htc : truthy commitHash <;>
      simp [hprov]

/-- C5: witness.  Both metadata fetches fail, a caller-supplied model
exists, and the operation returns it instead of aborting. -/
theorem C5_witness :
    detectGenerationModel (some (str "42")) (some (str "abc123"))
      (.error ()) (.error ()) (some (str "gpt-4")) = .ok (str "gpt-4") :=
  (C5_missing_model_characterization (some (str "42")) (some (str "abc123"))
      (.error ()) (.error ()) (some (str "gpt-4"))).2 rfl rfl (by decide)

/-! ### Claim theorems for metric validation -/

/-- C4: counterexample.  The 1-3 strategy templates declare scale 3,
and the claim requires a metric of `scale+1 = 4` to fail interpretation
with `MalformedReviewResponse`; but the deployed validator is the fixed
`z.number().min(1).max(5)` of `ReviewMetricsSchema`, which accepts 4
regardless of which template is active. -/
theorem C4_counterexample :
    validMetricsField (some (metricsObj (declaredScaleOneToThree + 1) 1 1 1))
      = true := by
  decide

/-- C4 as amended: the metrics validator enforces the fixed bound 1..5
of `ReviewMetricsSchema`, independent of the scale declared by the
active strategy template: a metrics record validates exactly when all
four values lie in 1..5 — so 0 and 6 always fail, every value in 1..5
is always accepted, and a 1-3 template's out-of-scale value 4 is
accepted rather than rejected. -/
theorem C4_amended :
    (∀ e p s m : Int,
      validMetricsField (some (metricsObj e p s m)) = true ↔
        (1 ≤ e ∧ e ≤ 5) ∧ (1 ≤ p ∧ p ≤ 5) ∧ (1 ≤ s ∧ s ≤ 5) ∧ (1 ≤ m ∧ m ≤ 5)) ∧
    validMetricsField (some (metricsObj 0 1 1 1)) = false ∧
    validMetricsField (some (metricsObj 6 1 1 1)) = false := by
  refine ⟨?_, by decide, by decide⟩
  intro e p s m
  simp [validMetricsField, metricsObj, metricInRange, Json.getField,
    List.find?, and_assoc,
    show (str "maintainability" == str "errorHandling") = false by decide,
    show (str "security" == str "errorHandling") = false by decide,
    show (str "performance" == str "errorHandling") = false by decide,
    show (str "maintainability" == str "performance") = false by decide,
    show (str "security" == str "performance") = false by decide,
    show (str "maintainability" == str "security") = false by decide]

/-! ### Claim theorems for strategy-dependent validation -/

theorem getField_spread_ne (a : Str) (va v : Json) (ms : List (Str × Json))
    (k : Str) (hk : (str "reviewStrategy" == k) = false) :
    Json.getField (.obj ((a, va) :: (str "reviewStrategy", v) :: ms)) k
      = Json.getField (.obj ((a, va) :: ms)) k := by
  simp [Json.getField, List.find?_append, List.find?, hk]

theorem getField_spread_strategy (va v : Json) (ms : List (Str × Json)) :
    Json.getField
        (.obj ((str "reviewModel", va) :: (str "reviewStrategy", v) :: ms))
        (str "reviewStrategy")
      = some ((((ms.reverse.find? fun kv => kv.1 == str "reviewStrategy").map
          fun kv => kv.2)).getD v) := by
  simp only [Json.getField, List.reverse_cons, List.append_assoc,
    List.find?_append]
  cases hx : ms.reverse.find? fun kv => kv.1 == str "reviewStrategy" with
  | some kv => simp
  | none => simp [List.find?]

theorem reviewCodeOutputValid_strategy_eq (s1 s2 model : Str) (d : Json)
    (h1 : (strategyValues.any fun v => v == s1) = true)
    (h2 : (strategyValues.any fun v => v == s2) = true) :
    reviewCodeOutputValid (spreadReviewFields model s1 d)
      = reviewCodeOutputValid (spreadReviewFields model s2 d) := by
  have e1 : (str "reviewStrategy" == str "reviewModel") = false := by decide
  have e2 : (str "reviewStrategy" == str "summary") = false := by decide
  have e3 : (str "reviewStrategy" == str "issues") = false := by decide
  have e4 : (str "reviewStrategy" == str "metrics") = false := by decide
  have e5 : (str "reviewStrategy" == str "alternative") = false := by decide
  have e6 : (str "reviewStrategy" == str "biasTriggersFound") = false := by decide
  cases d with
  | obj ms =>
    simp only [spreadReviewFields, reviewCodeOutputValid]
    rw [getField_spread_ne _ _ (Json.str s1) _ _ e1,
      getField_spread_ne _ _ (Json.str s2) _ _ e1,
      getField_spread_ne _ _ (Json.str s1) _ _ e2,
      getField_spread_ne _ _ (Json.str s2) _ _ e2,
      getField_spread_ne _ _ (Json.str s1) _ _ e3,
      getField_spread_ne _ _ (Json.str s2) _ _ e3,
      getField_spread_ne _ _ (Json.str s1) _ _ e4,
      getField_spread_ne _ _ (Json.str s2) _ _ e4,
      getField_spread_ne _ _ (Json.str s1) _ _ e5,
      getField_spread_ne _ _ (Json.str s2) _ _ e5,
      getField_spread_ne _ _ (Json.str s1) _ _ e6,
      getField_spread_ne _ _ (Json.str s2) _ _ e6,
      getField_spread_strategy (Json.str model) (Json.str s1) ms,
      getField_spread_strategy (Json.str model) (Json.str s2) ms]
    cases hx : ms.reverse.find? fun kv => kv.1 == str "reviewStrategy" with
    | some kv => rfl
    | none => simp [h1, h2]
  | null =>
    simp [spreadReviewFields, reviewCodeOutputValid, Json.getField,
      List.find?, e1, e2, isStringField,
      show (str "reviewModel" == str "summary") = false by decide]
  | bool b =>
    simp [spreadReviewFields, reviewCodeOutputValid, Json.getField,
      List.find?, e1, e2, isStringField,
      show (str "reviewModel" == str "summary") = false by decide]
  | num n =>
    simp [spreadReviewFields, reviewCodeOutputValid, Json.getField,
      List.find?, e1, e2, isStringField,
      show (str "reviewModel" == str "summary") = false by decide]
  | str s =>
    simp [spreadReviewFields, reviewCodeOutputValid, Json.getField,
      List.find?, e1, e2, isStringField,
      show (str "reviewModel" == str "summary") = false by decide]
  | arr xs =>
    simp [spreadReviewFields, reviewCodeOutputValid, Json.getField,
      List.find?, e1, e2, isStringField,
      show (str "reviewModel" == str "summary") = false by decide]

set_option maxRecDepth 10000 in
/-- C3: counterexample.  A parsed reviewer response lacking the
`biasTriggersFound` field is claimed to fail interpretation with
`MalformedReviewResponse` under strategy `bias_aware`; but the schema
marks the field `.optional()` unconditionally, so interpretation of
such a response under `bias_aware` succeeds. -/
theorem C3_counterexample :
    (interpretReviewResponse (str "bias_aware") (str "unknown")
      reviewWithoutBiasTriggers).isSome = true := by
  decide

set_option maxRecDepth 10000 in
/-- C3 as amended: validation of a reviewer response does not depend on
the strategy at all — for any two strategies in the enumeration,
interpretation of the same response text succeeds or fails identically
— and a response lacking `biasTriggersFound` interprets successfully
under `hybrid` and under `adversarial` alike. -/
theorem C3_amended :
    (∀ s1 s2 model rawText : Str,
      (strategyValues.any fun v => v == s1) = true →
      (strategyValues.any fun v => v == s2) = true →
      (interpretReviewResponse s1 model rawText).isSome
        = (interpretReviewResponse s2 model rawText).isSome) ∧
    (interpretReviewResponse (str "hybrid") (str "unknown")
      reviewWithoutBiasTriggers).isSome = true ∧
    (interpretReviewResponse (str "adversarial") (str "unknown")
      reviewWithoutBiasTriggers).isSome = true := by
  refine ⟨?_, by decide, by decide⟩
  intro s1 s2 model rawText h1 h2
  unfold interpretReviewResponse
  cases hp : parseReviewResponse rawText with
  | none => rfl
  | some d =>
    dsimp only
    rw [reviewCodeOutputValid_strategy_eq s1 s2 model d h1 h2]
    cases reviewCodeOutputValid (spreadReviewFields model s2 d) <;> simp

/-- C3: witness, instantiating strategy-independence at `bias_aware`
versus `adversarial` on the counterexample response text. -/
theorem C3_witness :
    (interpretReviewResponse (str "bias_aware") (str "unknown")
        reviewWithoutBiasTriggers).isSome
      = (interpretReviewResponse (str "adversarial") (str "unknown")
        reviewWithoutBiasTriggers).isSome :=
  C3_amended.1 (str "bias_aware") (str "adversarial") (str "unknown")
    reviewWithoutBiasTriggers (by decide) (by decide)

/-! ### Claim theorems for fallback hints -/

theorem shouldExcludeModel_token_false (g t : Str)
    (hlow : lower t = t)
    (hc : containsStr (lower g) t = false)
    (hbase : extractBaseModel (lower t) = some t ∨ extractBaseModel (lower t) = none)
    (hprov : findProvider (lower t) = some t ∨ findProvider (lower t) = none)
    (hparts : significantParts (lower t) = [t] ∨ significantParts (lower t) = []) :
    shouldExcludeModel g t = false := by
  have hnotinfix : ¬ t <:+: lower g := by
    intro hin
    rw [(containsStr_iff (lower g) t).mpr hin] at hc
    exact Bool.true_eq_false.mp hc
  have hshared : sharedSignificantPart (lower g) (lower t) = false := by
    unfold sharedSignificantPart
    rcases hparts with hp | hp <;> rw [hp]
    · rw [List.any_eq_false]
      intro p1 hp1
      simp only [List.any_cons, List.any_nil, Bool.or_false]
      cases hbe : p1 == t with
      | false => simp
      | true =>
        exact absurd ((beq_iff_eq.mp hbe) ▸ significantParts_infix hp1) hnotinfix
    · simp
  have hexact : (g == t) = false := by
    cases hbe : g == t with
    | false => rfl
    | true =>
      have hg := beq_iff_eq.mp hbe
      rw [hg, hlow] at hc
      rw [(containsStr_iff t t).mpr (List.infix_refl t)] at hc
      exact (Bool.true_eq_false.mp hc).elim
  have hprovgoal :
      (match findProvider (lower g), findProvider (lower t) with
        | some p1, some p2 => p1 == p2 || sharedSignificantPart (lower g) (lower t)
        | _, _ => sharedSignificantPart (lower g) (lower t)) = false := by
    cases hp1 : findProvider (lower g) with
    | some p1 =>
      rcases hprov with hpv | hpv <;> simp only [hp1, hpv]
      · cases hbe : p1 == t with
        | false => simp [hbe, hshared]
        | true =>
          exact absurd ((beq_iff_eq.mp hbe) ▸ findProvider_some hp1) hnotinfix
      · exact hshared
    | none =>
      rcases hprov with hpv | hpv <;> simp only [hp1, hpv] <;> exact hshared
  unfold shouldExcludeModel
  rw [hexact]
  simp only [Bool.false_or]
  unfold hasModelOverlap
  cases hb1 : extractBaseModel (lower g) with
  | some b1 =>
    rcases hbase with hb2 | hb2 <;> simp only [hb1, hb2]
    · cases hbe : b1 == t with
      | false => rfl
      | true =>
        exact absurd ((beq_iff_eq.mp hbe) ▸
          (extractBaseModel_some hb1).isInfix) hnotinfix
    · exact hprovgoal
  | none =>
    rcases hbase with hb2 | hb2 <;> simp only [hb1, hb2] <;> exact hprovgoal

theorem familiesMentioned_pair (g : Str) (hfam : familiesMentioned g ≤ 1) :
    (mentionsOpenAIFamily (lower g) = true →
      mentionsAnthropicFamily (lower g) = false ∧
      mentionsGoogleFamily (lower g) = false) ∧
    (mentionsAnthropicFamily (lower g) = true →
      mentionsGoogleFamily (lower g) = false) := by
  unfold familiesMentioned at hfam
  cases h1 : mentionsOpenAIFamily (lower g) <;>
    cases h2 : mentionsAnthropicFamily (lower g) <;>
      cases h3 : mentionsGoogleFamily (lower g) <;>
        cases h4 : mentionsMetaFamily (lower g) <;>
          simp_all [List.filter]

/-- C1: counterexample.  The claim quantifies over every
generation-model identifier, but for `"claudegpt"` — an identifier
mentioning two provider families — the gpt branch of
`createFallbackHints` recommends `claude`, which `shouldExcludeModel`
excludes for that generation model (both extract the base name
`claude`). -/
theorem C1_counterexample :
    str "claude" ∈ createFallbackHints (str "claudegpt") ∧
    shouldExcludeModel (str "claudegpt") (str "claude") = true := by
  exact ⟨by decide, by decide⟩

/-- C1 as amended: for every generation model whose identifier mentions
the trigger vocabulary of at most one provider family
(gpt/openai, claude/anthropic, gemini/google, llama/meta), no hint
produced by `createFallbackHints` is excluded by `shouldExcludeModel`;
identifiers mixing families (such as the counterexample `"claudegpt"`)
can collide with their own hints. -/
theorem C1_amended (g : Str) (hfam : familiesMentioned g ≤ 1) :
    ∀ h ∈ createFallbackHints g, shouldExcludeModel g h = false := by
  intro h hmem
  have hpair := familiesMentioned_pair g hfam
  unfold createFallbackHints at hmem
  dsimp only at hmem
  split at hmem
  · -- gpt / openai branch
    rename_i c1
    have hf2 : mentionsAnthropicFamily (lower g) = false := (hpair.1 c1).1
    have hf3 : mentionsGoogleFamily (lower g) = false := (hpair.1 c1).2
    unfold mentionsAnthropicFamily at hf2
    unfold mentionsGoogleFamily at hf3
    rw [Bool.or_eq_false_iff] at hf2 hf3
    simp only [List.mem_cons, List.not_mem_nil, or_false] at hmem
    rcases hmem with hmem | hmem <;> subst hmem
    · exact shouldExcludeModel_token_false g (str "claude") (by decide) hf2.1
        (by decide) (by decide) (by decide)
    · exact shouldExcludeModel_token_false g (str "gemini") (by decide) hf3.1
        (by decide) (by decide) (by decide)
  · rename_i c1
    rw [Bool.not_eq_true, Bool.or_eq_false_iff] at c1
    split at hmem
    · -- claude / anthropic branch
      rename_i c2
      have hf3 : mentionsGoogleFamily (lower g) = false := hpair.2 c2
      unfold mentionsGoogleFamily at hf3
      rw [Bool.or_eq_false_iff] at hf3
      simp only [List.mem_cons, List.not_mem_nil, or_false] at hmem
      rcases hmem with hmem | hmem | hmem <;> subst hmem
      · exact shouldExcludeModel_token_false g (str "gpt") (by decide) c1.1
          (by decide) (by decide) (by decide)
      · exact shouldExcludeModel_token_false g (str "gemini") (by decide) hf3.1
          (by decide) (by decide) (by decide)
      · exact shouldExcludeModel_token_false g (str "openai") (by decide) c1.2
          (by decide) (by decide) (by decide)
    · rename_i c2
      rw [Bool.not_eq_true, Bool.or_eq_false_iff] at c2
      split at hmem
      · -- gemini / google branch
        rename_i c3
        simp only [List.mem_cons, List.not_mem_nil, or_false] at hmem
        rcases hmem with hmem | hmem | hmem <;> subst hmem
        · exact shouldExcludeModel_token_false g (str "claude") (by decide) c2.1
            (by decide) (by decide) (by decide)
        · exact shouldExcludeModel_token_false g (str "gpt") (by decide) c1.1
            (by decide) (by decide) (by decide)
        · exact shouldExcludeModel_token_false g (str "openai") (by decide) c1.2
            (by decide) (by decide) (by decide)
      · rename_i c3
        rw [Bool.not_eq_true, Bool.or_eq_false_iff] at c3
        split at hmem
        · -- llama / meta branch
          rename_i c4
          simp only [List.mem_cons, List.not_mem_nil, or_false] at hmem
          rcases hmem with hmem | hmem | hmem <;> subst hmem
          · exact shouldExcludeModel_token_false g (str "claude") (by decide) c2.1
              (by decide) (by decide) (by decide)
          · exact shouldExcludeModel_token_false g (str "gpt") (by decide) c1.1
              (by decide) (by decide) (by decide)
          · exact shouldExcludeModel_token_false g (str "gemini") (by decide) c3.1
              (by decide) (by decide) (by decide)
        · -- default branch
          rename_i c4
          simp only [List.mem_cons, List.not_mem_nil, or_false] at hmem
          rcases hmem with hmem | hmem | hmem <;> subst hmem
          · exact shouldExcludeModel_token_false g (str "claude") (by decide) c2.1
              (by decide) (by decide) (by decide)
          · exact shouldExcludeModel_token_false g (str "gpt") (by decide) c1.1
              (by decide) (by decide) (by decide)
          · exact shouldExcludeModel_token_false g (str "gemini") (by decide) c3.1
              (by decide) (by decide) (by decide)

/-- C1: witness.  `"gpt-4"` mentions exactly one family, and its hint
`claude` is not excluded. -/
theorem C1_witness :
    shouldExcludeModel (str "gpt-4") (str "claude") = false :=
  C1_amended (str "gpt-4") (by decide) (str "claude") (by decide)

/-! ### Claim theorems for the fence-unwrapping step -/

theorem findFencedJson_eq_none {s : Str}
    (h : containsStr s fenceTicks = false) : findFencedJson s = none := by
  induction s with
  | nil => rfl
  | cons c rest ih =>
    rw [containsStr, Bool.or_eq_false_iff] at h
    rw [findFencedJson, h.1]
    exact ih h.2

theorem captureFrom_eq_none {v : Str} (h : ∀ c ∈ v, c ≠ '}') :
    captureFrom v = none := by
  induction v with
  | nil => rfl
  | cons c rest ih =>
    rw [captureFrom, ih fun x hx => h x (List.mem_cons_of_mem c hx)]
    have hbe : (c == '}') = false := by
      cases hbe : c == '}' with
      | false => rfl
      | true => exact absurd (beq_iff_eq.mp hbe) (h c (List.mem_cons_self c rest))
    simp [hbe]

theorem captureFrom_append {u v : Str} (hu : u.getLast? = some '}')
    (hv : captureFrom v = none) (htail : fenceTailOk v = true) :
    captureFrom (u ++ v) = some u := by
  obtain ⟨u', rfl⟩ := List.getLast?_eq_some_iff.mp hu
  induction u' with
  | nil =>
    rw [List.nil_append, List.cons_append, List.nil_append, captureFrom, hv]
    simp [htail]
  | cons c cs ih =>
    rw [List.cons_append, List.cons_append]
    have step : captureFrom (c :: ((cs ++ ['}']) ++ v))
        = match captureFrom ((cs ++ ['}']) ++ v) with
          | some cap => some (c :: cap)
          | none =>
            if (c == '}' && fenceTailOk ((cs ++ ['}']) ++ v)) = true
              then some [c] else none := rfl
    rw [step, ih (List.getLast?_eq_some_iff.mpr ⟨cs, rfl⟩)]

theorem dropWhile_append_all {p : Char → Bool} {e x : Str}
    (he : ∀ c ∈ e, p c = true) :
    List.dropWhile p (e ++ x) = List.dropWhile p x := by
  rw [List.dropWhile_append, List.dropWhile_eq_nil_iff.mpr he]
  simp

theorem dropWhile_append_of_ne {p : Char → Bool} {a b : Str}
    (h : List.dropWhile p a ≠ []) :
    List.dropWhile p (a ++ b) = List.dropWhile p a ++ b := by
  rw [List.dropWhile_append]
  rw [if_neg]
  simp [List.isEmpty_iff, h]

theorem trim_decomp (s : Str) :
    List.dropWhile wsChar s
      = trimStr s
        ++ ((List.dropWhile wsChar s).reverse.takeWhile wsChar).reverse := by
  unfold trimStr
  conv_lhs => rw [← List.reverse_reverse (List.dropWhile wsChar s),
    ← List.takeWhile_append_dropWhile wsChar (List.dropWhile wsChar s).reverse]
  rw [List.reverse_append]

theorem tryFenceBody_eq {u w : Str}
    (hw : List.dropWhile wsChar u = '{' :: w) :
    tryFenceBody u = captureFrom ('{' :: w) := by
  unfold tryFenceBody
  rw [hw]
  rfl

/-- C6 as amended: the unwrap step is transparent for every response
whose left-trimmed text starts with `\x7b` and whose trimmed text ends
with `\x7d` — as any serialized JSON object does — provided the
response contains no fence marker of its own: wrapping it in a
`json`-tagged fenced block does not change the interpreted value.  (The
counterexample shows the restriction is necessary: a JSON object
containing a fenced brace pair inside a string value extracts
differently with and without the wrapper.) -/
theorem C6_amended (s : Str)
    (hnf : containsStr s fenceTicks = false)
    (hhead : (List.dropWhile wsChar s).head? = some '{')
    (hlast : (trimStr s).getLast? = some '}') :
    parseReviewResponse (wrapFence s) = parseReviewResponse s := by
  obtain ⟨t0, ht0⟩ := List.head?_eq_some_iff.mp hhead
  obtain ⟨e, hdecomp, hews⟩ :
      ∃ e, List.dropWhile wsChar s = trimStr s ++ e ∧
        ∀ c ∈ e, wsChar c = true :=
    ⟨_, trim_decomp s,
      fun c hc => List.mem_takeWhile_imp (List.mem_reverse.mp hc)⟩
  have htrim_cons : ∃ t1, trimStr s = '{' :: t1 := by
    have hh : (trimStr s ++ e).head? = some '{' := by
      rw [← hdecomp]
      exact hhead
    cases htr : trimStr s with
    | nil =>
      exfalso
      rw [htr, List.nil_append] at hh
      obtain ⟨es, hes⟩ := List.head?_eq_some_iff.mp hh
      have hws := hews '{' (by rw [hes]; exact List.mem_cons_self _ _)
      exact absurd hws (by decide)
    | cons a t1 =>
      rw [htr] at hh
      simp only [List.cons_append, List.head?_cons, Option.some.injEq] at hh
      exact ⟨t1, by rw [hh]⟩
  obtain ⟨t1, htr⟩ := htrim_cons
  have hvnone : captureFrom (e ++ str "\n```") = none := by
    apply captureFrom_eq_none
    intro c hc
    rcases List.mem_append.mp hc with hc | hc
    · intro hceq
      subst hceq
      exact absurd (hews '}' hc) (by decide)
    · rw [show str "\n```" = ['\n', '`', '`', '`'] from rfl] at hc
      simp only [List.mem_cons, List.not_mem_nil, or_false] at hc
      rcases hc with rfl | rfl | rfl | rfl <;> decide
  have htailok : fenceTailOk (e ++ str "\n```") = true := by
    unfold fenceTailOk
    rw [dropWhile_append_all hews]
    decide
  have htb : tryFenceBody ('\n' :: (s ++ str "\n```")) = some (trimStr s) := by
    have hdw : List.dropWhile wsChar ('\n' :: (s ++ str "\n```"))
        = '{' :: ((t1 ++ e) ++ str "\n```") := by
      have h1 : List.dropWhile wsChar ('\n' :: (s ++ str "\n```"))
          = List.dropWhile wsChar (s ++ str "\n```") := rfl
      rw [h1, dropWhile_append_of_ne (by rw [ht0]; exact List.cons_ne_nil _ _),
        hdecomp, htr]
      rfl
    rw [tryFenceBody_eq hdw]
    have h2 : ('{' :: ((t1 ++ e) ++ str "\n```"))
        = ((trimStr s ++ e) ++ str "\n```") := by
      rw [htr]
      rfl
    rw [h2, List.append_assoc]
    exact captureFrom_append hlast hvnone htailok
  have hfa : fenceAfterTicks ('j' :: 's' :: 'o' :: 'n' :: '\n' :: (s ++ str "\n```"))
      = some (trimStr s) := by
    have step2 : fenceAfterTicks ('j' :: 's' :: 'o' :: 'n' :: '\n' :: (s ++ str "\n```"))
        = (match tryFenceBody ('\n' :: (s ++ str "\n```")) with
           | some cap => some cap
           | none => tryFenceBody ('j' :: 's' :: 'o' :: 'n' :: '\n' :: (s ++ str "\n```"))) := rfl
    rw [step2, htb]
  have hfence : findFencedJson (wrapFence s) = some (trimStr s) := by
    have step1 : findFencedJson (wrapFence s)
        = (match fenceAfterTicks ('j' :: 's' :: 'o' :: 'n' :: '\n' :: (s ++ str "\n```")) with
           | some cap => some cap
           | none => findFencedJson ('`' :: '`' :: 'j' :: 's' :: 'o' :: 'n' :: '\n' :: (s ++ str "\n```"))) := rfl
    rw [step1, hfa]
  have hx2 : extractJsonText (wrapFence s) = trimStr s := by
    unfold extractJsonText
    rw [hfence]
  have hx1 : extractJsonText s = trimStr s := by
    unfold extractJsonText
    rw [findFencedJson_eq_none hnf]
  unfold parseReviewResponse
  rw [hx1, hx2]

set_option maxRecDepth 10000 in
/-- C6: counterexample.  `fencedInsideString` parses as a JSON object
(its single string value contains a fenced brace pair), yet
`parseReviewResponse` on the bare text fails — the fence regex fires on
the inner backticks and extracts the non-JSON text `\x7bx\x7d` — while
on the fence-wrapped text it succeeds and returns the object itself, so
fenced and unfenced responses with identical content do not interpret
to identical values. -/
theorem C6_counterexample :
    (jsonParse fencedInsideString).isSome = true ∧
    (parseReviewResponse fencedInsideString).isSome = false ∧
    (parseReviewResponse (wrapFence fencedInsideString)
      == jsonParse fencedInsideString) = true := by
  refine ⟨by decide, by decide, by decide⟩

/-- C6: witness.  A fence-free JSON object text interprets identically
with and without the wrapper. -/
theorem C6_witness :
    parseReviewResponse (wrapFence (str "\x7b\"a\":1\x7d"))
      = parseReviewResponse (str "\x7b\"a\":1\x7d") :=
  C6_amended (str "\x7b\"a\":1\x7d") (by decide) (by decide) (by decide)
